import Mathlib

/-!
Verification of the diagnostic instrumentation subsystem (`src/compiler/debug.ts`)
of this repository: leveled logging, fail-fast assertions, enum/bitmask
formatting, deprecation interception, and the textual stack-trace filter.

The definitions below are a shallow embedding of the TypeScript source.
JavaScript `number` values used as bit flags are modelled as `Nat`
(nonnegative, below 2^31 in all uses of the source); JavaScript
`string | undefined` is modelled as `Option String`, with JS truthiness
(`undefined` and `""` are falsy) made explicit where the source relies on it.
Thrown `Error`s are modelled with `Except String`.
-/

namespace TSDebug

/-- JS truthiness of a `string | undefined` value: `undefined` and `""` are falsy. -/
def jsTruthy : Option String → Bool
  | none => false
  | some s => s ≠ ""

/-- JS string coercion of a `string | undefined` value (`undefined` prints as "undefined"). -/
def jsStr : Option String → String
  | none => "undefined"
  | some s => s

/-- `hay` starts with `pat` (on character lists). -/
def startsWithL : List Char → List Char → Bool
  | _, [] => true
  | [], _ :: _ => false
  | h :: hs, p :: ps => h = p && startsWithL hs ps

/-- `hay` contains `pat` as a contiguous substring (on character lists). -/
def containsL (hay pat : List Char) : Bool :=
  startsWithL hay pat ||
    match hay with
    | [] => false
    | _ :: hs => containsL hs pat

/-- String containment test, used to settle "the message contains ..." claims. -/
def strContains (hay pat : String) : Bool :=
  containsL hay.toList pat.toList

/-- `hay.startsWith pat`, on the underlying character lists. -/
def strStartsWith (hay pat : String) : Bool :=
  startsWithL hay.toList pat.toList

/-- `hay.endsWith pat`, on the underlying character lists. -/
def strEndsWith (hay pat : String) : Bool :=
  startsWithL hay.toList.reverse pat.toList.reverse

/-! ## Enumeration formatter (`formatEnum`, debug.ts lines 146-186)

An enum object is modelled as its name→value associations in declaration
order, `List (String × Nat)`; `getEnumMembers` reflects exactly these (the
reverse numeric-key mappings of a TS enum object hold string values and are
dropped by the source's `typeof value === "number"` filter).  `stableSort`
with `compareValues` lives in `core.ts` (not under `src/`); it is a stable
ascending sort, realised here by a stable insertion sort. -/

/-- Insert into a value-sorted member list before the first member of
strictly larger value (so members of equal value keep their relative order). -/
def insertMember (m : Nat × String) : List (Nat × String) → List (Nat × String)
  | [] => [m]
  | x :: xs => if m.1 ≤ x.1 then m :: x :: xs else x :: insertMember m xs

/-- Stable ascending sort by member value (models `stableSort(result, compareValues)`). -/
def sortMembers : List (Nat × String) → List (Nat × String)
  | [] => []
  | x :: xs => insertMember x (sortMembers xs)

/-- `getEnumMembers(enumObject)`: the (value, name) pairs of the enum object,
stably sorted ascending by value (debug.ts lines 176-186). -/
def getEnumMembers (enumObject : List (String × Nat)) : List (Nat × String) :=
  sortMembers (enumObject.map fun p => (p.2, p.1))

/-- `a & ~b` on nonnegative bit patterns, width-independently:
clearing from `a` every bit set in `b`. -/
def andNot (a b : Nat) : Nat := a ^^^ (a &&& b)

/-- The filter test `!filterEnum || filterEnum(enumValue, enumName)`. -/
def passesFilter (filterEnum : Option (Nat → String → Bool)) (v : Nat) (n : String) : Bool :=
  match filterEnum with
  | none => true
  | some f => f v n

/-- The member-consumption test of the flags loop (debug.ts line 157):
`(!filterEnum || filterEnum(v, n)) && v !== 0 && (remaining & v) === v`. -/
def consumeCond (filterEnum : Option (Nat → String → Bool)) (remaining : Nat)
    (m : Nat × String) : Bool :=
  passesFilter filterEnum m.1 m.2 && m.1 != 0 && (remaining &&& m.1 == m.1)

/-- The flags loop of `formatEnum` (debug.ts lines 153-161): scan the member
list from highest to lowest (the argument is the sorted member list already
reversed), stopping early once `remainingFlags` is `0`; consume a member when
it passes the filter, is nonzero, and its bits are all present. -/
def formatEnumFlagsLoop (filterEnum : Option (Nat → String → Bool)) :
    List (Nat × String) → Nat → String → Nat × String
  | [], remainingFlags, result => (remainingFlags, result)
  | m :: rest, remainingFlags, result =>
    if remainingFlags = 0 then (remainingFlags, result)
    else if consumeCond filterEnum remainingFlags m then
      formatEnumFlagsLoop filterEnum rest (andNot remainingFlags m.1)
        (m.2 ++ (if result != "" then "|" else "") ++ result)
    else
      formatEnumFlagsLoop filterEnum rest remainingFlags result

/-- `formatEnum(value, enumObject, isFlags, filterEnum)` (debug.ts lines 146-174). -/
def formatEnum (value : Nat) (enumObject : List (String × Nat)) (isFlags : Bool)
    (filterEnum : Option (Nat → String → Bool)) : String :=
  let members := getEnumMembers enumObject
  if value = 0 then
    match (members.filter fun m => m.1 = 0) with
    | [] => "0"
    | m :: _ => m.2
  else if isFlags then
    let st := formatEnumFlagsLoop filterEnum members.reverse value ""
    if st.1 = 0 then st.2 else toString value
  else
    match members.find? fun m => m.1 = value with
    | some m => m.2
    | none => toString value

/-- One step of the reference flag-decomposition: consume the member when it
passes the filter, is nonzero and `(remaining & member.value) = member.value`;
clear the bits and prepend the name pipe-joined. -/
def formatEnumRefStep (filterEnum : Option (Nat → String → Bool))
    (st : Nat × String) (m : Nat × String) : Nat × String :=
  if consumeCond filterEnum st.1 m then
    (andNot st.1 m.1, m.2 ++ (if st.2 != "" then "|" else "") ++ st.2)
  else st

/-- The four-step reference algorithm, written from the claim's words: with
value 0, the name of the first member whose value is 0, else "0"; with
`isFlags` false, the name of the first member in ascending value order whose
value equals `value`, else the decimal string; with `isFlags` true, a greedy
scan of members from highest value to lowest (a fold over the reversed sorted
list) skipping zero-valued and filter-rejected members, returning the
accumulated pipe-joined string when the remainder reaches 0, else the decimal
string of the original value. -/
def formatEnumSpec (value : Nat) (enumObject : List (String × Nat)) (isFlags : Bool)
    (filterEnum : Option (Nat → String → Bool)) : String :=
  let members := getEnumMembers enumObject
  if value = 0 then
    match members.find? fun m => m.1 = 0 with
    | some m => m.2
    | none => "0"
  else if isFlags then
    let st := members.reverse.foldl (formatEnumRefStep filterEnum) (value, "")
    if st.1 = 0 then st.2 else toString value
  else
    match members.find? fun m => m.1 = value with
    | some m => m.2
    | none => toString value

lemma consumeCond_zero (filterEnum : Option (Nat → String → Bool)) (m : Nat × String) :
    consumeCond filterEnum 0 m = false := by
  unfold consumeCond
  by_cases hz : m.1 = 0
  · simp [hz]
  · have h1 : ((0 : Nat) &&& m.1 == m.1) = false := by
      have h0 : (0 : Nat) &&& m.1 = 0 := Nat.zero_and _
      rw [h0]
      simp only [beq_eq_false_iff_ne, ne_eq]
      omega
    simp [h1]
    intro _ _
    omega

lemma formatEnumRefStep_zero (filterEnum : Option (Nat → String → Bool))
    (res : String) (m : Nat × String) :
    formatEnumRefStep filterEnum (0, res) m = (0, res) := by
  simp [formatEnumRefStep, consumeCond_zero]

lemma foldl_formatEnumRefStep_zero (filterEnum : Option (Nat → String → Bool)) :
    ∀ (l : List (Nat × String)) (res : String),
      l.foldl (formatEnumRefStep filterEnum) (0, res) = (0, res) := by
  intro l
  induction l with
  | nil => intro res; rfl
  | cons m rest ih =>
    intro res
    simp [List.foldl, formatEnumRefStep_zero, ih]

lemma formatEnumFlagsLoop_eq_foldl (filterEnum : Option (Nat → String → Bool)) :
    ∀ (l : List (Nat × String)) (rem : Nat) (res : String),
      formatEnumFlagsLoop filterEnum l rem res =
        l.foldl (formatEnumRefStep filterEnum) (rem, res) := by
  intro l
  induction l with
  | nil => intro rem res; rfl
  | cons m rest ih =>
    intro rem res
    by_cases h0 : rem = 0
    · subst h0
      simp [formatEnumFlagsLoop, List.foldl, formatEnumRefStep_zero,
        foldl_formatEnumRefStep_zero]
    · cases hc : consumeCond filterEnum rem m with
      | true =>
        simp only [formatEnumFlagsLoop, if_neg h0, hc, if_pos rfl, List.foldl,
          formatEnumRefStep, if_pos hc]
        exact ih _ _
      | false =>
        simp only [formatEnumFlagsLoop, if_neg h0, hc, List.foldl,
          formatEnumRefStep, if_neg (by simp [hc] : ¬consumeCond filterEnum rem m = true)]
        simp only [Bool.false_eq_true, if_false]
        exact ih _ _

/-! ## Leveled logger (debug.ts lines 3-58)

The process-wide configuration cells `currentLogLevel` and `loggingHost` are
modelled by a `LogConfig` value; the sink's effect is modelled by returning
the list of `(level, message)` pairs forwarded to it, so a logging call is a
pure function and can never raise. -/

inductive LogLevel where
  | Off
  | Error
  | Warning
  | Info
  | Verbose
deriving DecidableEq, Repr

/-- The numeric value of each `LogLevel` member, in source declaration order. -/
def LogLevel.toNat : LogLevel → Nat
  | .Off => 0
  | .Error => 1
  | .Warning => 2
  | .Info => 3
  | .Verbose => 4

structure LogConfig where
  currentLogLevel : LogLevel
  hasLoggingHost : Bool

/-- `shouldLog(level)` (lines 28-30): `currentLogLevel <= level`, numerically. -/
def shouldLog (cfg : LogConfig) (level : LogLevel) : Bool :=
  cfg.currentLogLevel.toNat ≤ level.toNat

/-- `logMessage(level, s)` (lines 32-36): forward `(level, s)` to the sink when
a host is registered and `shouldLog(level)`; otherwise a no-op. -/
def logMessage (cfg : LogConfig) (level : LogLevel) (s : String) :
    List (LogLevel × String) :=
  if cfg.hasLoggingHost && shouldLog cfg level then [(level, s)] else []

/-! ## Assertion engine (debug.ts lines 60-105, 226-240) -/

/-- The `verboseDebugInfo` argument of `assert`: `string | (() => string)`. -/
abbrev VerboseInfo := String ⊕ (Unit → String)

/-- JS truthiness of a `verboseDebugInfo` value: `""` is falsy, a function is
always truthy. -/
def verboseTruthy : VerboseInfo → Bool
  | Sum.inl s => s ≠ ""
  | Sum.inr _ => true

/-- `typeof verboseDebugInfo === "string" ? verboseDebugInfo : verboseDebugInfo()`. -/
def verboseText : VerboseInfo → String
  | Sum.inl s => s
  | Sum.inr f => f ()

/-- The message raised by `fail(message)` (lines 98-105): prefixed with
`"Debug Failure. "` when `message` is truthy, exactly `"Debug Failure."`
otherwise.  The `stackCrawlMark` attribution argument has no counterpart in a
pure embedding and is omitted. -/
def failMessage (message : Option String) : String :=
  if jsTruthy message then "Debug Failure. " ++ jsStr message else "Debug Failure."

/-- `fail(message)`: always raises. -/
def failD (message : Option String) : Except String Unit :=
  .error (failMessage message)

/-- `assert(expression, message, verboseDebugInfo)` (lines 64-71).  When the
expression is false, the source first appends the verbose debug information to
`message` with `message += "\r\nVerbose Debug Information: " + ...` — JS `+=`
coerces an `undefined` message to the string `"undefined"` — and then calls
`fail` with `"False expression: " + message` when the (possibly extended)
message is truthy, else `"False expression."`. -/
def assert (expression : Bool) (message : Option String)
    (verboseDebugInfo : Option VerboseInfo) : Except String Unit :=
  if expression then .ok ()
  else
    let message' : Option String :=
      match verboseDebugInfo with
      | some v =>
          if verboseTruthy v then
            some (jsStr message ++ "\r\nVerbose Debug Information: " ++ verboseText v)
          else message
      | none => message
    failD (some (if jsTruthy message' then "False expression: " ++ jsStr message'
      else "False expression."))

/-- `assertLessThan(a, b, msg)` (lines 80-84).  JS numbers are modelled as
integers; the failure message interpolates `${msg || ""}` after a trailing
period and space. -/
def assertLessThan (a b : Int) (msg : Option String) : Except String Unit :=
  if a ≥ b then
    failD (some ("Expected " ++ toString a ++ " < " ++ toString b ++ ". " ++
      (if jsTruthy msg then jsStr msg else "")))
  else .ok ()

/-- `assertLessThanOrEqual(a, b)` (lines 86-90): note no trailing period. -/
def assertLessThanOrEqual (a b : Int) : Except String Unit :=
  if a > b then
    failD (some ("Expected " ++ toString a ++ " <= " ++ toString b))
  else .ok ()

/-- `assertGreaterThanOrEqual(a, b)` (lines 92-96): note no trailing period. -/
def assertGreaterThanOrEqual (a b : Int) : Except String Unit :=
  if a < b then
    failD (some ("Expected " ++ toString a ++ " >= " ++ toString b))
  else .ok ()

/-- Modelled from the spec: `AssertionLevel` (the spec's StrictnessLevel, §3)
is declared in the host toolchain's `core.ts`, outside `src/`: an ordered
enumeration `None < Normal < Aggressive < VeryAggressive`. -/
inductive AssertionLevel where
  | None
  | Normal
  | Aggressive
  | VeryAggressive
deriving DecidableEq, Repr

def AssertionLevel.toNat : AssertionLevel → Nat
  | .None => 0
  | .Normal => 1
  | .Aggressive => 2
  | .VeryAggressive => 3

/-- `shouldAssert(level)` (lines 60-62): `currentAssertionLevel >= level`. -/
def shouldAssert (currentAssertionLevel level : AssertionLevel) : Bool :=
  level.toNat ≤ currentAssertionLevel.toNat

/-- A domain node: the assertion engine only reads its `kind` discriminant. -/
structure Node where
  kind : Nat
deriving DecidableEq, Repr

/-- `assertEachNode` (lines 226-232).  The source binds the constant once at
namespace initialization: `shouldAssert(AssertionLevel.Normal) ? (...) : noop`;
`initLevel` is the assertion level current at that moment.  When enabled it
asserts `test === undefined || every(nodes, test)` (`every` is the host
toolchain's all-elements test).  JS function-name introspection
(`getFunctionName(test)`) has no counterpart for Lean closures and is modelled
by its anonymous-function result `""`. -/
def assertEachNode (initLevel : AssertionLevel) (nodes : List Node)
    (test : Option (Node → Bool)) (message : Option String) : Except String Unit :=
  if shouldAssert initLevel .Normal then
    assert (match test with | none => true | some t => nodes.all t)
      (some (if jsTruthy message then jsStr message else "Unexpected node."))
      (some (Sum.inr fun _ => "Node array did not pass test ''."))
  else .ok ()

/-- `assertNode` (lines 234-240), same initialization-time specialization as
`assertEachNode`.  `formatSyntaxKind` reflects the external `ts.SyntaxKind`
enum (declared outside `src/`) and is passed as `fmtKind`; the source's
`node!.kind` in the failure thunk would throw on an `undefined` node, modelled
here by the string `"undefined"` (the thunk only runs on the failure path and
is irrelevant to the disabled branch). -/
def assertNode (initLevel : AssertionLevel) (fmtKind : Nat → String)
    (node : Option Node) (test : Option (Option Node → Bool)) (message : Option String) :
    Except String Unit :=
  if shouldAssert initLevel .Normal then
    assert (match test with | none => true | some t => t node)
      (some (if jsTruthy message then jsStr message else "Unexpected node."))
      (some (Sum.inr fun _ =>
        "Node " ++ (match node with | some n => fmtKind n.kind | none => "undefined") ++
          " did not pass test ''."))
  else .ok ()

/-! ## Deprecation interceptor (debug.ts lines 316-332) -/

/-- `DeprecationOptions` (debug.ts lines 15-20); the source field `until` is a
reserved word in Lean and is rendered `untilOpt`. -/
structure DeprecationOptions where
  message : Option String := none
  error : Bool := false
  since : Option String := none
  untilOpt : Option String := none
deriving Repr

/-- Substitute `arg` for each `{0}` placeholder. -/
def substPlaceholder (arg : List Char) : List Char → List Char
  | [] => []
  | c :: cs =>
    if startsWithL (c :: cs) "\x7b0\x7d".toList then
      arg ++ substPlaceholder arg (cs.drop 2)
    else
      c :: substPlaceholder arg cs
termination_by l => l.length
decreasing_by
  · simp only [List.length_cons, List.length_drop]
    omega
  · simp only [List.length_cons]
    omega

/-- Modelled from the spec: `formatStringFromArgs` is declared in the host
toolchain's `core.ts`, outside `src/`; per §4.4 the deprecation message is
formatted "with `{name}` substituted as a single positional argument", i.e.
each `{0}` placeholder is replaced by the name. -/
def formatStringFromArgs (text arg : String) : String :=
  ⟨substPlaceholder arg.toList text.toList⟩

/-- The `formattedMessage` computed by `createDeprecation` (lines 319-322). -/
def formattedDeprecationMessage (name : String) (options : DeprecationOptions) : String :=
  let m0 := if options.error then "DeprecationError: " else "DeprecationWarning: "
  let m1 := m0 ++ "'" ++ name ++ "' " ++
    (if jsTruthy options.since then "has been deprecated since " ++ jsStr options.since
     else "is deprecated")
  let m2 := m1 ++
    (if options.error then " and can no longer be used."
     else if jsTruthy options.untilOpt then
       " and will no longer be usable after " ++ jsStr options.untilOpt ++ "."
     else ".")
  m2 ++ (if jsTruthy options.message then
    " " ++ formatStringFromArgs (jsStr options.message) name else "")

/-- One invocation of the closure returned by `createDeprecation`
(`handleDeprecation`, lines 326-331).  The closure's captured state is the
`hasWrittenDeprecation` flag; a successful call returns the new flag value and
the messages forwarded to the logging sink (`log.warn` is
`logMessage(Warning, ·)`). -/
def handleDeprecation (name : String) (options : DeprecationOptions)
    (cfg : LogConfig) (hasWrittenDeprecation : Bool) :
    Except String (Bool × List (LogLevel × String)) :=
  if options.error then
    .error (failMessage (some (formattedDeprecationMessage name options)))
  else if hasWrittenDeprecation then .ok (hasWrittenDeprecation, [])
  else .ok (true, logMessage cfg .Warning (formattedDeprecationMessage name options))

/-- `n` successive invocations of one deprecation closure, threading the
`hasWrittenDeprecation` flag and collecting every message forwarded to the
sink.  (The error branch never reaches this accumulation: an error-flagged
deprecation raises on every call.) -/
def runDeprecationN (name : String) (options : DeprecationOptions) (cfg : LogConfig) :
    Nat → Bool → Bool × List (LogLevel × String)
  | 0, st => (st, [])
  | n + 1, st =>
    match handleDeprecation name options cfg st with
    | .error _ => (st, [])
    | .ok (st', logs) =>
      let r := runDeprecationN name options cfg n st'
      (r.1, logs ++ r.2)

/-! ## Stack-trace filter (debug.ts lines 375-584)

The source parses frames with three JavaScript regular expressions.  They are
embedded here as abstract syntax trees for a small backtracking matcher whose
enumeration order mirrors the JS engine: ordered alternation (left branch
preferred), greedy `?`/`*`/`+` (longer matches preferred), capture groups
keeping the branch-local last assignment, and zero-width negative lookahead.
All regexes in the source are anchored `^...$`, so matching is
whole-input from position 0. -/

/-- The character classes occurring in the source's regular expressions.
`any` is `.`, which in JS matches everything except line terminators. -/
inductive RClass where
  | any
  | lit (c : Char)
  | digit
  | notDot
  | notColon
  | notRBracket
  | alpha
deriving Repr

def RClass.matches : RClass → Char → Bool
  | .any, c => c ≠ '\n' && c ≠ '\r' && c.toNat ≠ 0x2028 && c.toNat ≠ 0x2029
  | .lit c', c => c = c'
  | .digit, c => c.isDigit
  | .notDot, c => c ≠ '.'
  | .notColon, c => c ≠ ':'
  | .notRBracket, c => c ≠ ']'
  | .alpha, c => c.isAlpha

inductive Regex where
  | eps
  | cls (k : RClass)
  | str (s : List Char)
  | seq (a b : Regex)
  | alt (a b : Regex)
  | opt (a : Regex)
  | star (a : Regex)
  | plus (a : Regex)
  | group (i : Nat) (a : Regex)
  | nla (a : Regex)
deriving Repr

/-- Capture assignments, newest first; a later assignment shadows earlier ones. -/
abbrev Caps := List (Nat × List Char)

def getCap (caps : Caps) (i : Nat) : Option (List Char) :=
  (caps.find? fun p => p.1 = i).map Prod.snd

def getCapL (caps : Caps) (i : Nat) : List Char :=
  (getCap caps i).getD []

/-- Greedy repetition: one body match (consuming at least one character, as
the JS engine stops repeating on an empty match) then the remaining
repetitions, longer matches enumerated first; the empty repetition last.
`fuel` bounds the number of repetitions; input length suffices since every
repetition consumes a character. -/
def starRun (step : List Char → Caps → List (List Char × Caps)) :
    Nat → List Char → Caps → List (List Char × Caps)
  | 0, s, caps => [(s, caps)]
  | fuel + 1, s, caps =>
    ((step s caps).filter fun r => r.1.length < s.length).flatMap
      (fun r => starRun step fuel r.1 r.2) ++ [(s, caps)]

/-- The height of a regex tree; the matcher recurses one level per nesting
level, so `height + 1` fuel never runs out. -/
def Regex.height : Regex → Nat
  | .eps => 0
  | .cls _ => 0
  | .str _ => 0
  | .seq a b => max a.height b.height + 1
  | .alt a b => max a.height b.height + 1
  | .opt a => a.height + 1
  | .star a => a.height + 1
  | .plus a => a.height + 1
  | .group _ a => a.height + 1
  | .nla a => a.height + 1

/-- All ways the regex can match a prefix of the input, as (remainder,
captures) pairs in the JS engine's backtracking preference order.  The fuel
decreases once per regex nesting level (repetition is fueled separately by
`starRun`), keeping the recursion structural. -/
def mrunF : Nat → Regex → List Char → Caps → List (List Char × Caps)
  | 0, _, _, _ => []
  | fuel + 1, r, s, caps =>
    match r with
    | .eps => [(s, caps)]
    | .cls k =>
      match s with
      | [] => []
      | c :: rest => if k.matches c then [(rest, caps)] else []
    | .str p => if startsWithL s p then [(s.drop p.length, caps)] else []
    | .seq a b => (mrunF fuel a s caps).flatMap fun r' => mrunF fuel b r'.1 r'.2
    | .alt a b => mrunF fuel a s caps ++ mrunF fuel b s caps
    | .opt a => mrunF fuel a s caps ++ [(s, caps)]
    | .star a => starRun (mrunF fuel a) s.length s caps
    | .plus a =>
      (mrunF fuel a s caps).flatMap fun r' =>
        if r'.1.length < s.length then starRun (mrunF fuel a) r'.1.length r'.1 r'.2
        else [r']
    | .group i a =>
      (mrunF fuel a s caps).map fun r' =>
        (r'.1, (i, s.take (s.length - r'.1.length)) :: r'.2)
    | .nla a => if (mrunF fuel a s caps).isEmpty then [(s, caps)] else []

def mrun (r : Regex) (s : List Char) (caps : Caps) : List (List Char × Caps) :=
  mrunF (r.height + 1) r s caps

/-- Anchored whole-input match: the first full match in preference order. -/
def matchAll (r : Regex) (s : List Char) : Option Caps :=
  (((mrun r s []).filter fun p => p.1.isEmpty).head?).map Prod.snd

/-- `/^    at (.*)$/` (debug.ts line 500). -/
def atRegex : Regex :=
  .seq (.str "    at ".toList) (.group 1 (.star (.cls .any)))

/-- `evalLocationRegExp = /^eval at (.*)$/` (line 467). -/
def evalLocationRegex : Regex :=
  .seq (.str "eval at ".toList) (.group 1 (.star (.cls .any)))

/-- `fileLocationRegExp` (line 468):
`/^(native|unknown location|<anonymous>|(?:(?:[a-zA-Z]|file|https?):)?[^:]+)(?::(\d+)(?::(\d+))?)?$/`. -/
def fileLocationRegex : Regex :=
  .seq
    (.group 1 (.alt (.str "native".toList)
      (.alt (.str "unknown location".toList)
      (.alt (.str "<anonymous>".toList)
        (.seq
          (.opt (.seq
            (.alt (.cls .alpha)
              (.alt (.str "file".toList)
                (.seq (.str "http".toList) (.opt (.cls (.lit 's'))))))
            (.cls (.lit ':'))))
          (.plus (.cls .notColon)))))))
    (.opt (.seq (.cls (.lit ':')) (.seq (.group 2 (.plus (.cls .digit)))
      (.opt (.seq (.cls (.lit ':')) (.group 3 (.plus (.cls .digit))))))))

/-- `positionRegExp` (line 469):
`/^(async )?(new )?((?:[^.]+\.)+)?((?:(?! [\[(]).)*)(?: \[as ([^\]]+)\])? \((.*)\)$/`. -/
def positionRegex : Regex :=
  .seq (.opt (.group 1 (.str "async ".toList)))
  (.seq (.opt (.group 2 (.str "new ".toList)))
  (.seq (.opt (.group 3 (.plus (.seq (.plus (.cls .notDot)) (.cls (.lit '.'))))))
  (.seq (.group 4 (.star (.seq
      (.nla (.seq (.cls (.lit ' ')) (.alt (.cls (.lit '[')) (.cls (.lit '(')))))
      (.cls .any))))
  (.seq (.opt (.seq (.str " [as ".toList)
      (.seq (.group 5 (.plus (.cls .notRBracket))) (.cls (.lit ']')))))
  (.seq (.cls (.lit ' '))
  (.seq (.cls (.lit '('))
  (.seq (.group 6 (.star (.cls .any))) (.cls (.lit ')')))))))))

/-- `StackFrame` (debug.ts lines 385-395): all fields optional; `evalOrigin`
makes the type recursive. -/
inductive StackFrame where
  | mk (typeName functionName methodName fileName : Option String)
       (lineNumber columnNumber : Option Int)
       (evalOrigin : Option StackFrame)
       (isConstructor isAsync : Option Bool)
deriving Repr

def StackFrame.typeName : StackFrame → Option String
  | .mk t _ _ _ _ _ _ _ _ => t

def StackFrame.functionName : StackFrame → Option String
  | .mk _ f _ _ _ _ _ _ _ => f

def StackFrame.methodName : StackFrame → Option String
  | .mk _ _ m _ _ _ _ _ _ => m

def StackFrame.fileName : StackFrame → Option String
  | .mk _ _ _ fn _ _ _ _ _ => fn

def StackFrame.lineNumber : StackFrame → Option Int
  | .mk _ _ _ _ l _ _ _ _ => l

def StackFrame.columnNumber : StackFrame → Option Int
  | .mk _ _ _ _ _ c _ _ _ => c

def StackFrame.evalOrigin : StackFrame → Option StackFrame
  | .mk _ _ _ _ _ _ e _ _ => e

def StackFrame.isConstructorF : StackFrame → Option Bool
  | .mk _ _ _ _ _ _ _ ic _ => ic

def StackFrame.isAsync : StackFrame → Option Bool
  | .mk _ _ _ _ _ _ _ _ ia => ia

def StackFrame.withFileName : StackFrame → Option String → StackFrame
  | .mk t f m _ l c e ic ia, fn => .mk t f m fn l c e ic ia

/-- `parseInt(text, 10) - 1`: the source's 1-based → 0-based conversion (the
result may be -1 when the text is "0"). -/
def parsePos (digits : List Char) : Int :=
  Int.ofNat (digits.foldl (fun acc c => acc * 10 + (c.toNat - 48)) 0) - 1

def listToStr (l : List Char) : String := ⟨l⟩

/-- Modelled from the spec: `isRootedDiskPath` is a host-toolchain path
utility outside `src/`; a rooted disk path begins with a directory separator
or a drive specifier such as `c:/` or `c:`. -/
def isRootedDiskPath (s : String) : Bool :=
  match s.toList with
  | [] => false
  | '/' :: _ => true
  | '\\' :: _ => true
  | c :: ':' :: rest =>
    c.isAlpha && (rest.isEmpty ||
      (match rest with
       | c2 :: _ => c2 = '/' || c2 = '\\'
       | [] => true))
  | _ :: _ => false

/-- The mutually recursive `parseStackFrameLocation` (debug.ts lines 471-490,
the `isLocation = true` entry) and `parseStackFrame` (lines 492-516, the
`isLocation = false` entry) as one fuel-indexed function.  Every recursion
level strips at least seven characters (`"    at "` or `"eval at "`), so
`input length + 1` fuel is always sufficient. -/
def parseSF : Nat → Bool → List Char → Option StackFrame
  | 0, _, _ => none
  | fuel + 1, true, location =>
    (match matchAll evalLocationRegex location with
     | some caps =>
       match parseSF fuel false (getCapL caps 1) with
       | some evalOrigin =>
         some (.mk none none none none none none (some evalOrigin) none none)
       | none => none
     | none =>
       match matchAll fileLocationRegex location with
       | some caps =>
         some (.mk none none none (some (listToStr (getCapL caps 1)))
           ((getCap caps 2).map parsePos) ((getCap caps 3).map parsePos) none none none)
       | none => none)
  | fuel + 1, false, line =>
    (match matchAll atRegex line with
     | none => none
     | some caps0 =>
       let position := getCapL caps0 1
       match matchAll positionRegex position with
       | some caps =>
         let location := parseSF fuel true (getCapL caps 6)
         some (.mk
           ((getCap caps 3).map fun l => listToStr l.dropLast)
           (some (listToStr (getCapL caps 4)))
           ((getCap caps 5).map listToStr)
           (match location with | some loc => loc.fileName | none => none)
           (match location with | some loc => loc.lineNumber | none => none)
           (match location with | some loc => loc.columnNumber | none => none)
           (match location with | some loc => loc.evalOrigin | none => none)
           (some (getCap caps 2).isSome)
           (some (getCap caps 1).isSome))
       | none =>
         match parseSF fuel true position with
         | some loc =>
           if loc.evalOrigin.isSome ||
               (jsTruthy loc.fileName && isRootedDiskPath (jsStr loc.fileName)) then
             some loc
           else none
         | none => none)

/-- `parseStackFrame` on a string, with ample fuel. -/
def parseStackFrameS (line : String) : Option StackFrame :=
  parseSF (line.toList.length + 1) false line.toList

/-- `formatStackFrame(frame)` (debug.ts lines 518-540) with
`formatLocation(frame)` (lines 542-559) inlined as the `location` binding;
the recursion is on the nested `evalOrigin` frame. -/
def formatStackFrame : StackFrame → String
  | .mk typeName functionName methodName fileName lineNumber columnNumber evalOrigin
      isConstructor isAsync =>
    let location :=
      if jsTruthy fileName then
        jsStr fileName ++
          (match lineNumber with
           | some l => ":" ++ toString (l + 1) ++
               (match columnNumber with
                | some c => ":" ++ toString (c + 1)
                | none => "")
           | none => "")
      else
        match evalOrigin with
        | some origin => "eval at " ++ formatStackFrame origin
        | none => "unknown location"
    "    at " ++
      (if jsTruthy functionName then
        (if isAsync = some true then "async "
         else if isConstructor = some true then "new " else "") ++
        (if jsTruthy typeName then jsStr typeName ++ "." else "") ++
        jsStr functionName ++
        (if jsTruthy methodName then " [as " ++ jsStr methodName ++ "]" else "") ++
        " (" ++ location ++ ")"
      else location)

/-- Modelled from the spec: `normalizeSlashes` is a host-toolchain path
utility outside `src/`; it replaces backslashes with forward slashes. -/
def normalizeSlashes (s : String) : String :=
  ⟨s.toList.map fun c => if c = '\\' then '/' else c⟩

/-- `isNodeStackFrame` (lines 565-567): `/(timers|events|node|module)\.js$/`. -/
def isNodeStackFrame (frame : StackFrame) : Bool :=
  jsTruthy frame.fileName &&
    (["timers.js", "events.js", "node.js", "module.js"].any fun suffi =>
      strEndsWith (jsStr frame.fileName) suffi)

/-- `isMochaStackFrame` (lines 561-563):
`/[/](node_modules|components)[/]mocha(js)?[/]|[/]mocha\.js$/` on the
slash-normalized file name. -/
def isMochaStackFrame (frame : StackFrame) : Bool :=
  jsTruthy frame.fileName &&
    (let f := normalizeSlashes (jsStr frame.fileName)
     strContains f "/node_modules/mocha/" || strContains f "/node_modules/mochajs/" ||
     strContains f "/components/mocha/" || strContains f "/components/mochajs/" ||
     strEndsWith f "/mocha.js")

/-- The `(built[/]local|lib)[/](...)\.js` path fragments of
`isTypeScriptStackFrame`'s first pattern, enumerated. -/
def tsFrameFiles : List String :=
  ["built/local", "lib"].flatMap fun p =>
    ["cancellationToken", "tsc", "tsserver", "tsserverlibrary", "typescript",
     "typescriptServices", "typingsInstaller", "watchGuard", "run"].map fun n =>
      p ++ "/" ++ n ++ ".js"

/-- The `src[/](...)[/]` path fragments of `isTypeScriptStackFrame`'s second
pattern, enumerated. -/
def tsSrcDirs : List String :=
  ["compat", "compiler", "harness", "server", "services", "shims", "testRunner",
   "tsc", "tsserver", "tsserverlibrary", "typescriptServices", "typingsInstaller",
   "typingsInstallerCore", "watchGuard"].map fun n => "src/" ++ n ++ "/"

/-- A `([/]|^)fragment` containment test: the file starts with the fragment or
contains it right after a slash. -/
def slashBounded (file fragment : String) : Bool :=
  strStartsWith file fragment || strContains file ("/" ++ fragment)

/-- `isTypeScriptStackFrame` (lines 569-580). -/
def isTypeScriptStackFrame (frame : StackFrame) : Bool :=
  jsTruthy frame.fileName &&
    (let file := normalizeSlashes (jsStr frame.fileName)
     tsFrameFiles.any (slashBounded file) || tsSrcDirs.any (slashBounded file))

/-- `isBuiltinStackFrame` (lines 582-584). -/
def isBuiltinStackFrame (frame : StackFrame) : Bool :=
  (frame.fileName == some "native" || frame.fileName == some "<anonymous>") &&
    jsTruthy frame.functionName

/-- A word character for the `\b` boundary of the file-URI rewrite regex. -/
def isWordChar (c : Char) : Bool := c.isAlpha || c.isDigit || c = '_'

/-- Whether the lookahead `(?=(:\d+)*($|\)))` holds at this position: zero or
more `:digits` groups reach the end of the string or a `)`.  Taking the
maximal digit run at each step is complete, because stopping inside a run
leaves a digit, which starts neither another `:digits` group nor the tail. -/
def lookFileUrlEnd : Nat → List Char → Bool
  | _, [] => true
  | _, ')' :: _ => true
  | 0, _ => false
  | fuel + 1, ':' :: c :: rest =>
    c.isDigit && lookFileUrlEnd fuel ((c :: rest).dropWhile Char.isDigit)
  | _ + 1, _ => false

/-- The lazy capture `(.*?)` before the lookahead: the shortest extension at
which the lookahead holds, never crossing a line terminator. -/
def lazyCapture : Nat → List Char → Option (List Char × List Char)
  | fuel, s =>
    if lookFileUrlEnd s.length s then some ([], s)
    else
      match fuel, s with
      | fuel + 1, c :: rest =>
        if RClass.any.matches c then
          (lazyCapture fuel rest).map fun r => (c :: r.1, r.2)
        else none
      | _, _ => none

/-- The file-URI rewrite of debug.ts line 412:
`fileName.replace(/\bfile:\/\/\/(.*?)(?=(:\d+)*($|\)))/, (_, path) => ts.sys.resolvePath(path))`.
`ts.sys.resolvePath` is external to `src/` (spec §6's path-resolve hook) and
is passed in as `resolvePath`.  Only the first match is replaced (no `g` flag). -/
def replaceFileUrlGo (resolvePath : String → String) :
    Bool → List Char → List Char
  | _, [] => []
  | prevIsWord, c :: rest =>
    if !prevIsWord && startsWithL (c :: rest) "file:///".toList then
      let after := (c :: rest).drop 8
      match lazyCapture after.length after with
      | some r => (resolvePath ⟨r.1⟩).toList ++ r.2
      | none => c :: replaceFileUrlGo resolvePath (isWordChar c) rest
    else c :: replaceFileUrlGo resolvePath (isWordChar c) rest

def replaceFileUrl (resolvePath : String → String) (s : String) : String :=
  ⟨replaceFileUrlGo resolvePath false s.toList⟩

/-- `stack.split(/\r\n?|\n/g)` (line 402). -/
def splitLinesGo (acc : List Char) : List Char → List String
  | [] => [⟨acc.reverse⟩]
  | '\r' :: '\n' :: rest => listToStr acc.reverse :: splitLinesGo [] rest
  | '\r' :: rest => listToStr acc.reverse :: splitLinesGo [] rest
  | '\n' :: rest => listToStr acc.reverse :: splitLinesGo [] rest
  | c :: rest => splitLinesGo (c :: acc) rest

def splitLines (s : String) : List String := splitLinesGo [] s.toList

/-- `FilterStackOptions` (lines 375-383).  `stackTraceLimit` defaults to
`Infinity`, modelled as `none`; `rewriteFrame` defaults to
`filterStack.defaultRewriteFrame`, the identity. -/
structure FilterStackOptions where
  stackTraceLimit : Option Nat := none
  exclude : Option (StackFrame → Bool) := none
  excludeNode : Bool := false
  excludeMocha : Bool := false
  excludeTypeScript : Bool := false
  excludeBuiltin : Bool := false
  rewriteFrame : StackFrame → StackFrame := id

/-- The spec's FilterRun state (§3): the loop-local variables of
`filterStack` (lines 403-407).  `filtered` accumulates output lines newest
first. -/
structure FilterState where
  filtered : List String := []
  frameCount : Nat := 0
  lastFrameWasExcluded : Bool := false
  excludedFrameCount : Nat := 0
  lastExcludedFrame : Option String := none

/-- The synthetic collapsed-run line:
`"    ... skipping N frame(s) ..."` (lines 432 and 445). -/
def skipLine (n : Nat) : String :=
  "    ... skipping " ++ toString n ++ " frame" ++ (if n > 1 then "s" else "") ++ " ..."

/-- The frame rewrite of the loop's lines 411-416: for a frame whose file
name is truthy and none of the three location literals, normalize `file:///`
URIs through the path-resolve hook and apply the rewrite hook. -/
def rewriteParsedFrame (resolvePath : String → String) (opts : FilterStackOptions)
    (frame0 : StackFrame) : StackFrame :=
  if jsTruthy frame0.fileName && frame0.fileName != some "native" &&
      frame0.fileName != some "unknown location" &&
      frame0.fileName != some "<anonymous>" then
    opts.rewriteFrame (frame0.withFileName
      (some (replaceFileUrl resolvePath (jsStr frame0.fileName))))
  else frame0

/-- The position-independent part of the exclusion test of lines 418-422: the
four category excluders and the caller-supplied predicate (the
`frameCount >= stackTraceLimit` disjunct of line 417 lives in the loop body,
as it reads the running state). -/
def frameExcluded (opts : FilterStackOptions) (frame : StackFrame) : Bool :=
  (opts.excludeNode && isNodeStackFrame frame) ||
  (opts.excludeMocha && isMochaStackFrame frame) ||
  (opts.excludeTypeScript && isTypeScriptStackFrame frame) ||
  (opts.excludeBuiltin && isBuiltinStackFrame frame) ||
  (match opts.exclude with
   | some p => p frame
   | none => false)

/-- One iteration of the `filterStack` loop body (lines 408-441). -/
def filterStackLine (resolvePath : String → String) (opts : FilterStackOptions)
    (st : FilterState) (line : String) : FilterState :=
  match parseStackFrameS line with
  | none => { st with filtered := line :: st.filtered }
  | some frame0 =>
    let frame := rewriteParsedFrame resolvePath opts frame0
    let excluded :=
      (match opts.stackTraceLimit with
       | some lim => st.frameCount ≥ lim
       | none => false) ||
      frameExcluded opts frame
    if excluded && st.lastFrameWasExcluded then
      { st with excludedFrameCount := st.excludedFrameCount + 1,
                lastExcludedFrame := some (formatStackFrame frame) }
    else
      let st1 :=
        if excluded then { st with lastFrameWasExcluded := true }
        else
          let st' :=
            if st.excludedFrameCount > 0 then
              { st with filtered := skipLine st.excludedFrameCount :: st.filtered,
                        excludedFrameCount := 0 }
            else st
          { st' with lastFrameWasExcluded := false }
      { st1 with frameCount := st1.frameCount + 1,
                 filtered := formatStackFrame frame :: st1.filtered }

/-- The trailing-run epilogue of `filterStack` (lines 442-450) followed by the
final reversal into output order. -/
def filterStackFinish (st : FilterState) : List String :=
  if st.excludedFrameCount > 0 then
    let n := st.excludedFrameCount - 1
    let withSkip := if n > 0 then skipLine n :: st.filtered else st.filtered
    let withLast := if jsTruthy st.lastExcludedFrame then
        jsStr st.lastExcludedFrame :: withSkip
      else withSkip
    withLast.reverse
  else st.filtered.reverse

/-- The body of `filterStack` on a non-empty stack text (lines 402-457). -/
def filterStackProcess (resolvePath : String → String) (opts : FilterStackOptions)
    (stack : String) : String :=
  String.intercalate "\n"
    (filterStackFinish ((splitLines stack).foldl (filterStackLine resolvePath opts) {}))

/-- `filterStack` on the string overload (lines 397-461): a falsy (empty)
stack is returned unchanged. -/
def filterStackStr (resolvePath : String → String) (opts : FilterStackOptions)
    (stack : String) : String :=
  if stack = "" then stack else filterStackProcess resolvePath opts stack

/-- An Error-like object as `filterStack`'s object overload sees it: the
fields the subsystem never touches are represented by `name` and `message`. -/
structure JsError where
  name : String := "Error"
  message : String := ""
  stack : Option String := none
deriving DecidableEq, Repr

/-- `filterStack` on the `Error` overload: mutates only `.stack`, and only
when the existing `.stack` text is truthy. -/
def filterStackErr (resolvePath : String → String) (opts : FilterStackOptions)
    (e : JsError) : JsError :=
  match e.stack with
  | none => e
  | some s =>
    if s = "" then e
    else { e with stack := some (filterStackProcess resolvePath opts s) }

/-! ## Line classification under a fixed hook/option set

With no finite `stackTraceLimit` (the source's `Infinity` default), whether
the loop excludes a parsed frame depends only on the frame itself, so each
input line has a position-independent verdict. -/

/-- The rewritten frame the loop computes for a line, when the line parses. -/
def lineFrame (resolvePath : String → String) (opts : FilterStackOptions)
    (line : String) : Option StackFrame :=
  (parseStackFrameS line).map (rewriteParsedFrame resolvePath opts)

/-- The line parses to a frame that the (position-independent) exclusion
test rejects. -/
def excludedFrameLine (resolvePath : String → String) (opts : FilterStackOptions)
    (line : String) : Bool :=
  match lineFrame resolvePath opts line with
  | some f => frameExcluded opts f
  | none => false

/-- The line parses to a frame that the exclusion test keeps. -/
def keptFrameLine (resolvePath : String → String) (opts : FilterStackOptions)
    (line : String) : Bool :=
  match lineFrame resolvePath opts line with
  | some f => !frameExcluded opts f
  | none => false

/-- What the loop emits for a line: the reserialized rewritten frame when the
line parses, the line itself otherwise. -/
def formattedLine (resolvePath : String → String) (opts : FilterStackOptions)
    (line : String) : String :=
  match lineFrame resolvePath opts line with
  | some f => formatStackFrame f
  | none => line

lemma find?_eq_head_filter (p : Nat × String → Bool) (l : List (Nat × String)) :
    (match l.filter p with
      | [] => ("0" : String)
      | m :: _ => m.2) =
    (match l.find? p with
      | some m => m.2
      | none => "0") := by
  induction l with
  | nil => rfl
  | cons x xs ih =>
    by_cases hx : p x = true
    · simp [List.filter, List.find?, hx]
    · simp only [List.filter, List.find?, hx]
      simpa using ih

lemma length_pos_of_ne_empty (s : String) (h : s ≠ "") : 0 < s.length := by
  cases s with
  | mk data =>
    cases data with
    | nil => exact absurd rfl h
    | cons c cs => simp [String.length]

lemma append_ne_empty_left (s t : String) (h : s ≠ "") : s ++ t ≠ "" := by
  intro hc
  have hl : (s ++ t).length = ("" : String).length := congrArg String.length hc
  rw [String.length_append] at hl
  have h1 : ("" : String).length = 0 := rfl
  have h2 := length_pos_of_ne_empty s h
  omega

lemma runDeprecationN_after_warned (name : String) (options : DeprecationOptions)
    (cfg : LogConfig) (h : options.error = false) :
    ∀ n : Nat, runDeprecationN name options cfg n true = (true, []) := by
  intro n
  induction n with
  | zero => rfl
  | succ k ih => simp [runDeprecationN, handleDeprecation, h, ih]

lemma formatStackFrame_ne_empty (f : StackFrame) : formatStackFrame f ≠ "" := by
  cases f with
  | mk t fn m fi l c e ic ia =>
    cases l <;> cases c <;> cases e <;>
      · simp only [formatStackFrame]
        intro hc
        exact append_ne_empty_left "    at " _ (by decide) hc

lemma formattedLine_ne_empty_of_excluded (resolvePath : String → String)
    (opts : FilterStackOptions) (line : String)
    (hl : excludedFrameLine resolvePath opts line = true) :
    formattedLine resolvePath opts line ≠ "" := by
  unfold excludedFrameLine at hl
  unfold formattedLine
  cases h : lineFrame resolvePath opts line with
  | none => rw [h] at hl; simp at hl
  | some f => simp [formatStackFrame_ne_empty f]

/-- Processing an excluded frame line with the previous frame not excluded
(debug.ts line 428 and the fall-through to lines 437-440): the frame is
emitted, the frame counter advances, and the run begins. -/
lemma filterStackLine_excluded_first (resolvePath : String → String)
    (opts : FilterStackOptions) (hlim : opts.stackTraceLimit = none)
    (st : FilterState) (hst : st.lastFrameWasExcluded = false)
    (line : String) (hl : excludedFrameLine resolvePath opts line = true) :
    filterStackLine resolvePath opts st line =
      { st with filtered := formattedLine resolvePath opts line :: st.filtered,
                frameCount := st.frameCount + 1,
                lastFrameWasExcluded := true } := by
  obtain ⟨filtered, frameCount, lastW, exCount, lastEx⟩ := st
  simp only at hst
  subst hst
  cases hp : parseStackFrameS line with
  | none =>
    unfold excludedFrameLine lineFrame at hl
    rw [hp] at hl
    simp at hl
  | some frame0 =>
    have hex : frameExcluded opts (rewriteParsedFrame resolvePath opts frame0) = true := by
      unfold excludedFrameLine lineFrame at hl
      rw [hp] at hl
      simpa using hl
    have hfmt : formattedLine resolvePath opts line =
        formatStackFrame (rewriteParsedFrame resolvePath opts frame0) := by
      unfold formattedLine lineFrame
      rw [hp]
      rfl
    simp [filterStackLine, hp, hlim, hex, hfmt]

/-- Processing an excluded frame line while the previous frame was excluded
(debug.ts lines 423-427): the run grows by one and its last frame is
recorded, nothing is emitted. -/
lemma filterStackLine_excluded_cont (resolvePath : String → String)
    (opts : FilterStackOptions) (hlim : opts.stackTraceLimit = none)
    (st : FilterState) (hst : st.lastFrameWasExcluded = true)
    (line : String) (hl : excludedFrameLine resolvePath opts line = true) :
    filterStackLine resolvePath opts st line =
      { st with excludedFrameCount := st.excludedFrameCount + 1,
                lastExcludedFrame := some (formattedLine resolvePath opts line) } := by
  obtain ⟨filtered, frameCount, lastW, exCount, lastEx⟩ := st
  simp only at hst
  subst hst
  cases hp : parseStackFrameS line with
  | none =>
    unfold excludedFrameLine lineFrame at hl
    rw [hp] at hl
    simp at hl
  | some frame0 =>
    have hex : frameExcluded opts (rewriteParsedFrame resolvePath opts frame0) = true := by
      unfold excludedFrameLine lineFrame at hl
      rw [hp] at hl
      simpa using hl
    have hfmt : formattedLine resolvePath opts line =
        formatStackFrame (rewriteParsedFrame resolvePath opts frame0) := by
      unfold formattedLine lineFrame
      rw [hp]
      rfl
    simp [filterStackLine, hp, hlim, hex, hfmt]

/-- Processing a kept frame line (debug.ts lines 430-440): a pending run
collapses into its skip line, the frame is emitted, and the run state
resets. -/
lemma filterStackLine_kept (resolvePath : String → String)
    (opts : FilterStackOptions) (hlim : opts.stackTraceLimit = none)
    (st : FilterState) (line : String)
    (hl : keptFrameLine resolvePath opts line = true) :
    filterStackLine resolvePath opts st line =
      { filtered := formattedLine resolvePath opts line ::
          (if 0 < st.excludedFrameCount then skipLine st.excludedFrameCount :: st.filtered
           else st.filtered),
        frameCount := st.frameCount + 1,
        lastFrameWasExcluded := false,
        excludedFrameCount := 0,
        lastExcludedFrame := st.lastExcludedFrame } := by
  obtain ⟨filtered, frameCount, lastW, exCount, lastEx⟩ := st
  cases hp : parseStackFrameS line with
  | none =>
    unfold keptFrameLine lineFrame at hl
    rw [hp] at hl
    simp at hl
  | some frame0 =>
    have hex : frameExcluded opts (rewriteParsedFrame resolvePath opts frame0) = false := by
      unfold keptFrameLine lineFrame at hl
      rw [hp] at hl
      simpa using hl
    have hfmt : formattedLine resolvePath opts line =
        formatStackFrame (rewriteParsedFrame resolvePath opts frame0) := by
      unfold formattedLine lineFrame
      rw [hp]
      rfl
    by_cases hc : 0 < exCount
    · simp [filterStackLine, hp, hlim, hex, hfmt, hc]
    · have h0 : exCount = 0 := by omega
      subst h0
      simp [filterStackLine, hp, hlim, hex, hfmt]

/-- Folding a list of excluded frame lines while a run is open: the run grows
by the list's length and its last frame is the list's last line. -/
lemma foldl_excluded_run (resolvePath : String → String)
    (opts : FilterStackOptions) (hlim : opts.stackTraceLimit = none) :
    ∀ (es : List String), (∀ x ∈ es, excludedFrameLine resolvePath opts x = true) →
      ∀ (st : FilterState), st.lastFrameWasExcluded = true →
        es.foldl (filterStackLine resolvePath opts) st =
          { st with excludedFrameCount := st.excludedFrameCount + es.length,
                    lastExcludedFrame :=
                      match es.getLast? with
                      | some l => some (formattedLine resolvePath opts l)
                      | none => st.lastExcludedFrame } := by
  intro es
  induction es with
  | nil =>
    intro _ st _
    simp
  | cons x xs ih =>
    intro hes st hst
    rw [List.foldl_cons,
      filterStackLine_excluded_cont resolvePath opts hlim st hst x (hes x (by simp))]
    rw [ih (fun y hy => hes y (by simp [hy])) _ (by simp [hst])]
    cases xs with
    | nil => simp
    | cons y ys =>
      simp only [List.getLast?_cons_cons]
      cases hg : (y :: ys).getLast? with
      | none => simp at hg
      | some l =>
        simp [Nat.add_assoc, Nat.add_comm 1 (ys.length + 1)]

lemma getLast?_some_mem (y : String) (ys : List String) :
    ∃ l, (y :: ys).getLast? = some l ∧ l ∈ y :: ys := by
  induction ys generalizing y with
  | nil => exact ⟨y, rfl, by simp⟩
  | cons z zs ih =>
    obtain ⟨l, hl, hm⟩ := ih z
    exact ⟨l, by simpa [List.getLast?_cons_cons] using hl, by simp at hm ⊢; tauto⟩

/-! ## Concrete traces and options used by the stack-filter claims -/

/-- Options enabling only the built-in node-frames exclusion category. -/
def nodeSkipOptions : FilterStackOptions := { excludeNode := true }

/-- Three consecutive node-excluded frames followed by one kept frame. -/
def collapseInput : String :=
  "    at f1 (module.js:1:1)\n    at f2 (module.js:2:2)\n    at f3 (module.js:3:3)\n    at keep (/app/a.js:1:1)"

/-- The same three node-excluded frames ending the trace. -/
def trailingExcludedInput : String :=
  "    at f1 (module.js:1:1)\n    at f2 (module.js:2:2)\n    at f3 (module.js:3:3)"

/-- A fixed option set whose exclusion predicate rejects frames without a
type name. -/
def typeNameOptions : FilterStackOptions :=
  { exclude := some fun f => f.typeName = none }

/-- Three kept frames whose type prefixes vanish under reserialization
(each has an empty function name). -/
def c9TraceInput : String :=
  "    at A. (/a/b.js:1:1)\n    at B. (/a/b.js:2:2)\n    at C. (/a/b.js:3:3)"

/-- A representative trace: a header line, three node-excluded frames, one
kept frame. -/
def c9MixedInput : String :=
  "Error: boom\n    at f1 (module.js:1:1)\n    at f2 (events.js:5:3)\n    at f3 (timers.js:2:2)\n    at keep (/app/a.js:1:1)"

/-- The filtered form of `c9MixedInput` under `nodeSkipOptions`. -/
def c9MixedOutput : String :=
  "Error: boom\n    at f1 (module.js:1:1)\n    ... skipping 2 frames ...\n    at keep (/app/a.js:1:1)"

/-- The C3 concrete-scenario frame line. -/
def c3Line : String := "    at Object.foo (/a/b.js:10:5)"

/-- The frame the C3 concrete scenario expects. -/
def c3Frame : StackFrame :=
  .mk (some "Object") (some "foo") none (some "/a/b.js") (some 9) (some 4) none
    (some false) (some false)

/-- A frame line with a type prefix and an empty function name. -/
def c3BadLine : String := "    at A. (/a/b.js:1:1)"

/-! ## Claim theorems -/

set_option maxHeartbeats 8000000

/-- C1: `formatEnum(value, enumObject, isFlags, filter)` follows the four-step
reference algorithm exactly: with value 0 the name of the first zero-valued
member (else "0"); with `isFlags` false the name of the first member in
ascending value order whose value equals `value` (else the decimal string);
with `isFlags` true a greedy highest-to-lowest scan that skips zero-valued and
filter-rejected members, consumes a member when `(remaining & v) = v`,
prepending pipe-joined names, returns the accumulated string when the
remainder reaches 0, and falls back to the decimal string of the original
value when bits remain.  `formatEnumSpec` is that algorithm written from the
claim's words; the two agree on all inputs. -/
theorem formatEnum_follows_reference_algorithm (value : Nat)
    (enumObject : List (String × Nat)) (isFlags : Bool)
    (filterEnum : Option (Nat → String → Bool)) :
    formatEnum value enumObject isFlags filterEnum =
      formatEnumSpec value enumObject isFlags filterEnum := by
  simp only [formatEnum, formatEnumSpec]
  by_cases h0 : value = 0
  · simp only [if_pos h0]
    exact find?_eq_head_filter _ _
  · simp only [if_neg h0]
    cases isFlags
    · rfl
    · simp [formatEnumFlagsLoop_eq_foldl]

/-- C2 counterexample: for three consecutive excluded frames followed by one
kept frame, `filterStack` emits the reformatted FIRST excluded frame and then
the skip line — not, as the claim states, the skip line followed by the
reformatted third (last-excluded) frame. -/
theorem filterStack_collapse_claim_counterexample :
    filterStackStr id nodeSkipOptions collapseInput =
      "    at f1 (module.js:1:1)\n    ... skipping 2 frames ...\n    at keep (/app/a.js:1:1)" ∧
    ("    at f1 (module.js:1:1)\n    ... skipping 2 frames ...\n    at keep (/app/a.js:1:1)" ≠
      "    ... skipping 2 frames ...\n    at f3 (module.js:3:3)\n    at keep (/app/a.js:1:1)") := by
  constructor
  · decide
  · decide

/-- C2 (amended): for every run of consecutive excluded frames — any length
N ≥ 1, any frame lines, any hooks, under an option set with no finite
`stackTraceLimit` (the source's `Infinity` default, making a frame's
exclusion verdict position-independent) — `filterStack` keeps the run's first
frame (reformatted) and collapses the rest into
`"    ... skipping N-1 frame(s) ..."` (exactly the omitted frames), placed
immediately before the next kept frame when the run is followed by one
(first conjunct, runs of length `es.length + 1`); when the run ends the trace
instead, the run's last excluded frame is re-emitted and the skip count is
N − 2 (second conjunct).  In particular, for three excluded frames and one
kept frame the output is: reformatted first frame, `"    ... skipping 2
frames ..."`, kept frame. -/
theorem filterStack_collapse_amended (resolvePath : String → String)
    (opts : FilterStackOptions) (hlim : opts.stackTraceLimit = none)
    (stack e kept : String) (es : List String)
    (he : excludedFrameLine resolvePath opts e = true)
    (hes : ∀ x ∈ es, excludedFrameLine resolvePath opts x = true) :
    (splitLines stack = e :: (es ++ [kept]) →
      keptFrameLine resolvePath opts kept = true →
      filterStackStr resolvePath opts stack =
        String.intercalate "\n" (formattedLine resolvePath opts e ::
          ((if 0 < es.length then [skipLine es.length] else []) ++
            [formattedLine resolvePath opts kept]))) ∧
    (splitLines stack = e :: es →
      filterStackStr resolvePath opts stack =
        String.intercalate "\n" (formattedLine resolvePath opts e ::
          ((if 1 < es.length then [skipLine (es.length - 1)] else []) ++
            (match es.getLast? with
             | some l => [formattedLine resolvePath opts l]
             | none => [])))) := by
  constructor
  · intro hsplit hkept
    have hne : stack ≠ "" := by
      intro h0
      subst h0
      have h1 : splitLines "" = [""] := rfl
      rw [h1] at hsplit
      have h2 := congrArg List.length hsplit
      simp at h2
    rw [filterStackStr, if_neg hne, filterStackProcess, hsplit, List.foldl_cons,
      filterStackLine_excluded_first resolvePath opts hlim {} rfl e he,
      List.foldl_append,
      foldl_excluded_run resolvePath opts hlim es hes _ rfl,
      List.foldl_cons, List.foldl_nil,
      filterStackLine_kept resolvePath opts hlim _ kept hkept]
    by_cases hlen : 0 < es.length
    · simp [filterStackFinish, hlen]
    · simp [filterStackFinish, hlen]
  · intro hsplit
    have hne : stack ≠ "" := by
      intro h0
      subst h0
      have h1 : splitLines "" = [""] := rfl
      rw [h1] at hsplit
      have h2 : "" = e := by
        have := List.head_eq_of_cons_eq hsplit.symm
        exact this.symm
      subst h2
      have hp : parseStackFrameS "" = none := rfl
      unfold excludedFrameLine lineFrame at he
      rw [hp] at he
      simp at he
    rw [filterStackStr, if_neg hne, filterStackProcess, hsplit, List.foldl_cons,
      filterStackLine_excluded_first resolvePath opts hlim {} rfl e he,
      foldl_excluded_run resolvePath opts hlim es hes _ rfl]
    cases es with
    | nil => simp [filterStackFinish]
    | cons y ys =>
      obtain ⟨l, hl, hm⟩ := getLast?_some_mem y ys
      have hfl : formattedLine resolvePath opts l ≠ "" :=
        formattedLine_ne_empty_of_excluded resolvePath opts l (hes l hm)
      rw [hl]
      cases ys with
      | nil =>
        simp [filterStackFinish, jsTruthy, jsStr, hfl]
      | cons z zs =>
        simp [filterStackFinish, jsTruthy, jsStr, hfl, skipLine]

/-- C2 witness: the amended theorem at the concrete traces — three
node-excluded frames followed by a kept frame, and the same three frames
ending the trace. -/
theorem filterStack_collapse_amended_witness :
    filterStackStr id nodeSkipOptions collapseInput =
      "    at f1 (module.js:1:1)\n    ... skipping 2 frames ...\n    at keep (/app/a.js:1:1)" ∧
    filterStackStr id nodeSkipOptions trailingExcludedInput =
      "    at f1 (module.js:1:1)\n    ... skipping 1 frame ...\n    at f3 (module.js:3:3)" := by
  constructor
  · have h := (filterStack_collapse_amended id nodeSkipOptions rfl collapseInput
      "    at f1 (module.js:1:1)" "    at keep (/app/a.js:1:1)"
      ["    at f2 (module.js:2:2)", "    at f3 (module.js:3:3)"]
      (by decide) (by decide)).1 (by decide) (by decide)
    rw [h]
    decide
  · have h := (filterStack_collapse_amended id nodeSkipOptions rfl trailingExcludedInput
      "    at f1 (module.js:1:1)" ""
      ["    at f2 (module.js:2:2)", "    at f3 (module.js:3:3)"]
      (by decide) (by decide)).2 (by decide)
    rw [h]
    decide

/-- C3 (amended): the concrete scenario holds exactly — the line
`"    at Object.foo (/a/b.js:10:5)"` parses to typeName "Object",
functionName "foo", fileName "/a/b.js", lineNumber 9, columnNumber 4, and
serializes back to the identical line; byte-identity of parse→serialize holds
on such canonical lines but not on every accepted line (see the
counterexample), where serialization normalizes the frame. -/
theorem parse_format_concrete_scenario :
    parseStackFrameS c3Line = some c3Frame ∧
    c3Frame.typeName = some "Object" ∧
    c3Frame.functionName = some "foo" ∧
    c3Frame.fileName = some "/a/b.js" ∧
    c3Frame.lineNumber = some 9 ∧
    c3Frame.columnNumber = some 4 ∧
    formatStackFrame c3Frame = c3Line := by
  refine ⟨rfl, rfl, rfl, rfl, rfl, rfl, rfl⟩

/-- C3 counterexample: the grammar accepts `"    at A. (/a/b.js:1:1)"` (type
prefix with empty function name), but its parse reserializes to the bare
location line `"    at /a/b.js:1:1"`, so serializing the parse is not
byte-identical to the input for every accepted frame line. -/
theorem parse_format_byte_identity_counterexample :
    (parseStackFrameS c3BadLine).map formatStackFrame = some "    at /a/b.js:1:1" ∧
    some "    at /a/b.js:1:1" ≠ some c3BadLine := by
  constructor
  · rfl
  · decide

/-- C4: for every closure created by `createDeprecation`: with `error` set,
every invocation from every state raises the same formatted fatal error and
leaves no state change behind; otherwise, with a registered sink and a
threshold admitting warnings, N ≥ 1 invocations emit exactly one
Warning-severity message — on the first call — and all later calls are no-ops
gated by the `hasWrittenDeprecation` flag. -/
theorem createDeprecation_invocations (name : String) (options : DeprecationOptions)
    (cfg : LogConfig) :
    (options.error = true → ∀ st : Bool,
      handleDeprecation name options cfg st =
        .error (failMessage (some (formattedDeprecationMessage name options)))) ∧
    (options.error = false → cfg.hasLoggingHost = true →
      shouldLog cfg .Warning = true → ∀ n : Nat, 1 ≤ n →
        runDeprecationN name options cfg n false =
          (true, [(LogLevel.Warning, formattedDeprecationMessage name options)])) := by
  constructor
  · intro he st
    simp [handleDeprecation, he]
  · intro he hh hw n hn
    match n, hn with
    | n + 1, _ =>
      simp [runDeprecationN, handleDeprecation, he, logMessage, hh, hw,
        runDeprecationN_after_warned name options cfg he]

/-- C4 witness: an error-flagged deprecation fails (identically from any
state), and a default deprecation warns exactly once across three calls. -/
theorem createDeprecation_invocations_witness :
    handleDeprecation "f" { error := true } ⟨.Warning, true⟩ false =
      .error "Debug Failure. DeprecationError: 'f' is deprecated and can no longer be used." ∧
    runDeprecationN "g" {} ⟨.Warning, true⟩ 3 false =
      (true, [(LogLevel.Warning, "DeprecationWarning: 'g' is deprecated.")]) := by
  constructor
  · have h := (createDeprecation_invocations "f" { error := true } ⟨.Warning, true⟩).1 rfl false
    rw [h]
    rfl
  · have h := (createDeprecation_invocations "g" {} ⟨.Warning, true⟩).2 rfl rfl rfl 3 (by omega)
    rw [h]
    rfl

/-- C5 counterexample: with the condition false, no message, and a verbose
thunk, the raised message is the JS `+=` coercion
"Debug Failure. False expression: undefined\r\nVerbose Debug Information: V",
which does not contain the claimed "False expression." text. -/
theorem assert_message_claim_counterexample :
    assert false none (some (Sum.inr fun _ => "V")) =
      .error "Debug Failure. False expression: undefined\r\nVerbose Debug Information: V" ∧
    strContains "Debug Failure. False expression: undefined\r\nVerbose Debug Information: V"
      "False expression." = false := by
  constructor
  · rfl
  · decide

/-- C5 (amended): `assert` raises exactly when the condition is false, and on
success returns `.ok ()` uniformly in the thunk (so the thunk is never
needed); on failure with a non-empty message the raised message is
"Debug Failure. False expression: " followed by the message with the verbose
debug information appended first when provided; with no message and no
verbose info it is exactly "Debug Failure. False expression."; with no
message but a verbose thunk, the JS coercion of the undefined message yields
"Debug Failure. False expression: undefined" followed by the appended info. -/
theorem assert_behavior_amended (m : Option String) (v : Option VerboseInfo) :
    (assert true m v = .ok ()) ∧
    (∀ s : String, s ≠ "" → ∀ t : Unit → String,
      assert false (some s) (some (Sum.inr t)) =
        .error ("Debug Failure. " ++ ("False expression: " ++
          ((s ++ "\r\nVerbose Debug Information: ") ++ t ())))) ∧
    (∀ s : String, s ≠ "" →
      assert false (some s) none =
        .error ("Debug Failure. " ++ ("False expression: " ++ s))) ∧
    (assert false none none = .error "Debug Failure. False expression.") ∧
    (∀ t : Unit → String,
      assert false none (some (Sum.inr t)) =
        .error ("Debug Failure. " ++ ("False expression: " ++
          ("undefined\r\nVerbose Debug Information: " ++ t ())))) := by
  refine ⟨rfl, ?_, ?_, rfl, ?_⟩
  · intro s hs t
    have h1 : ((s ++ "\r\nVerbose Debug Information: ") ++ t ()) ≠ "" :=
      append_ne_empty_left _ _ (append_ne_empty_left _ _ hs)
    have h2 : ("False expression: " ++ ((s ++ "\r\nVerbose Debug Information: ") ++ t ())) ≠ "" :=
      append_ne_empty_left _ _ (by decide)
    simp [assert, verboseTruthy, verboseText, jsStr, jsTruthy, failD, failMessage, h1, h2]
  · intro s hs
    have h2 : ("False expression: " ++ s) ≠ "" :=
      append_ne_empty_left _ _ (by decide)
    simp [assert, jsStr, jsTruthy, failD, failMessage, hs, h2]
  · intro t
    have h1 : ("undefined\r\nVerbose Debug Information: " ++ t ()) ≠ "" :=
      append_ne_empty_left _ _ (by decide)
    have h2 : ("False expression: " ++ ("undefined\r\nVerbose Debug Information: " ++ t ())) ≠ "" :=
      append_ne_empty_left _ _ (by decide)
    simp [assert, verboseTruthy, verboseText, jsStr, jsTruthy, failD, failMessage, h1, h2]

/-- C5 witness: the amended theorem at concrete inputs. -/
theorem assert_behavior_amended_witness :
    assert true (some "m") (some (Sum.inr fun _ => "V")) = .ok () ∧
    assert false (some "m") (some (Sum.inr fun _ => "V")) =
      .error "Debug Failure. False expression: m\r\nVerbose Debug Information: V" ∧
    assert false (some "m") none = .error "Debug Failure. False expression: m" ∧
    assert false none none = .error "Debug Failure. False expression." := by
  refine ⟨(assert_behavior_amended (some "m") (some (Sum.inr fun _ => "V"))).1, ?_, ?_,
    (assert_behavior_amended none none).2.2.2.1⟩
  · have h := (assert_behavior_amended none none).2.1 "m" (by decide) (fun _ => "V")
    rw [h]
    rfl
  · have h := (assert_behavior_amended none none).2.2.1 "m" (by decide)
    rw [h]
    rfl

/-- C6: when the assertion strictness configured at initialization is below
the Normal threshold, `assertNode` and `assertEachNode` are no-ops: for every
node (or node list), every predicate and every message the result is `.ok ()`,
uniformly in the predicate — so the outcome never depends on evaluating it —
and nothing fails. -/
theorem assertNode_disabled_noop (initLevel : AssertionLevel)
    (h : shouldAssert initLevel .Normal = false)
    (fmtKind : Nat → String) (node : Option Node) (nodes : List Node)
    (testNode : Option (Option Node → Bool)) (testEach : Option (Node → Bool))
    (message1 message2 : Option String) :
    assertNode initLevel fmtKind node testNode message1 = .ok () ∧
    assertEachNode initLevel nodes testEach message2 = .ok () := by
  constructor
  · simp [assertNode, h]
  · simp [assertEachNode, h]

/-- C6 witness: at initialization level `None` (below Normal) both assertions
ignore an always-failing predicate. -/
theorem assertNode_disabled_noop_witness :
    shouldAssert .None .Normal = false ∧
    assertNode .None (fun _ => "") (some ⟨0⟩) (some fun _ => false) none = .ok () ∧
    assertEachNode .None [⟨0⟩] (some fun _ => false) none = .ok () := by
  refine ⟨by decide, ?_, ?_⟩
  · exact (assertNode_disabled_noop .None (by decide) (fun _ => "") (some ⟨0⟩) []
      (some fun _ => false) none none none).1
  · exact (assertNode_disabled_noop .None (by decide) (fun _ => "") none [⟨0⟩]
      none (some fun _ => false) none none).2

/-- C7 counterexample: `assertLessThanOrEqual(3, 2)` raises
"Debug Failure. Expected 3 <= 2", which differs from the claimed templated
message carrying a trailing period. -/
theorem ordering_assertion_period_counterexample :
    assertLessThanOrEqual 3 2 = .error "Debug Failure. Expected 3 <= 2" ∧
    ("Debug Failure. Expected 3 <= 2" ≠ "Debug Failure. Expected 3 <= 2.") := by
  constructor
  · rfl
  · decide

/-- C7 (amended): each comparison assertion is a no-op when the comparison
holds; on violation `assertLessThan` raises "Expected {a} < {b}. " — trailing
period, space, and the empty interpolation of the absent optional message —
while `assertLessThanOrEqual` and `assertGreaterThanOrEqual` raise
"Expected {a} <= {b}" and "Expected {a} >= {b}" with no trailing period. -/
theorem ordering_assertions_amended (a b : Int) :
    (a < b → assertLessThan a b none = .ok ()) ∧
    (¬ a < b → assertLessThan a b none =
      .error ("Debug Failure. " ++
        ("Expected " ++ toString a ++ " < " ++ toString b ++ ". "))) ∧
    (a ≤ b → assertLessThanOrEqual a b = .ok ()) ∧
    (¬ a ≤ b → assertLessThanOrEqual a b =
      .error ("Debug Failure. " ++
        ("Expected " ++ toString a ++ " <= " ++ toString b))) ∧
    (b ≤ a → assertGreaterThanOrEqual a b = .ok ()) ∧
    (¬ b ≤ a → assertGreaterThanOrEqual a b =
      .error ("Debug Failure. " ++
        ("Expected " ++ toString a ++ " >= " ++ toString b))) := by
  refine ⟨?_, ?_, ?_, ?_, ?_, ?_⟩
  · intro h
    simp [assertLessThan, not_le.mpr h]
  · intro h
    have hy : ("Expected " ++ toString a ++ " < " ++ toString b ++ ". ") ≠ "" :=
      append_ne_empty_left _ _ (append_ne_empty_left _ _ (append_ne_empty_left _ _
        (append_ne_empty_left _ _ (by decide))))
    simp [assertLessThan, not_lt.mp h, jsTruthy, jsStr, failD, failMessage,
      String.append_empty, hy]
  · intro h
    simp [assertLessThanOrEqual, not_lt.mpr h]
  · intro h
    have hy : ("Expected " ++ toString a ++ " <= " ++ toString b) ≠ "" :=
      append_ne_empty_left _ _ (append_ne_empty_left _ _ (append_ne_empty_left _ _ (by decide)))
    simp [assertLessThanOrEqual, not_le.mp h, jsTruthy, jsStr, failD, failMessage, hy]
  · intro h
    simp [assertGreaterThanOrEqual, not_lt.mpr h]
  · intro h
    have hy : ("Expected " ++ toString a ++ " >= " ++ toString b) ≠ "" :=
      append_ne_empty_left _ _ (append_ne_empty_left _ _ (append_ne_empty_left _ _ (by decide)))
    simp [assertGreaterThanOrEqual, not_le.mp h, jsTruthy, jsStr, failD, failMessage, hy]

/-- C7 witness: the amended theorem at concrete integers, in both the holding
and the violating direction of each comparison. -/
theorem ordering_assertions_amended_witness :
    ((2 : Int) < 3 ∧ assertLessThan 2 3 none = .ok ()) ∧
    (¬ (3 : Int) < 2 ∧ assertLessThan 3 2 none = .error "Debug Failure. Expected 3 < 2. ") ∧
    ((2 : Int) ≤ 3 ∧ assertLessThanOrEqual 2 3 = .ok ()) ∧
    (¬ (3 : Int) ≤ 2 ∧ assertLessThanOrEqual 3 2 = .error "Debug Failure. Expected 3 <= 2") ∧
    ((2 : Int) ≤ 2 ∧ assertGreaterThanOrEqual 2 2 = .ok ()) ∧
    (¬ (3 : Int) ≤ 2 ∧ assertGreaterThanOrEqual 2 3 = .error "Debug Failure. Expected 2 >= 3") := by
  refine ⟨⟨by decide, (ordering_assertions_amended 2 3).1 (by decide)⟩,
    ⟨by decide, ?_⟩,
    ⟨by decide, (ordering_assertions_amended 2 3).2.2.1 (by decide)⟩,
    ⟨by decide, ?_⟩,
    ⟨by decide, (ordering_assertions_amended 2 2).2.2.2.2.1 (by decide)⟩,
    ⟨by decide, ?_⟩⟩
  · have h := (ordering_assertions_amended 3 2).2.1 (by decide)
    rw [h]
    rfl
  · have h := (ordering_assertions_amended 3 2).2.2.2.1 (by decide)
    rw [h]
    rfl
  · have h := (ordering_assertions_amended 2 3).2.2.2.2.2 (by decide)
    rw [h]
    rfl

/-- C8: a logging call forwards `(severity, text)` to the sink exactly when a
sink is registered and the current threshold is numerically ≤ the message
severity, with Off=0 < Error=1 < Warning=2 < Info=3 < Verbose=4; otherwise it
is a no-op.  The model returns the forwarded messages as a pure list, so a
logging call never raises, and the absence of a sink is silently absorbed as
the empty forward list. -/
theorem logMessage_forwarding (cfg : LogConfig) (level : LogLevel) (s : String) :
    (logMessage cfg level s =
      if cfg.hasLoggingHost = true ∧ cfg.currentLogLevel.toNat ≤ level.toNat
        then [(level, s)] else []) ∧
    LogLevel.Off.toNat = 0 ∧ LogLevel.Error.toNat = 1 ∧
    LogLevel.Warning.toNat = 2 ∧ LogLevel.Info.toNat = 3 ∧
    LogLevel.Verbose.toNat = 4 := by
  refine ⟨?_, rfl, rfl, rfl, rfl, rfl⟩
  by_cases h1 : cfg.hasLoggingHost = true <;>
    by_cases h2 : cfg.currentLogLevel.toNat ≤ level.toNat <;>
      simp [logMessage, shouldLog, h1, h2]

/-- C9 counterexample: with the fixed option set `typeNameOptions` (exclude
frames without a type name), the once-filtered trace is not a fixed point:
serialization drops the `A.`/`B.`/`C.` type prefixes (each frame's function
name is empty), so the second pass excludes the frames and collapses the
trace further. -/
theorem filterStack_idempotence_counterexample :
    filterStackStr id typeNameOptions c9TraceInput =
      "    at /a/b.js:1:1\n    at /a/b.js:2:2\n    at /a/b.js:3:3" ∧
    filterStackStr id typeNameOptions
        "    at /a/b.js:1:1\n    at /a/b.js:2:2\n    at /a/b.js:3:3" =
      "    at /a/b.js:1:1\n    ... skipping 1 frame ...\n    at /a/b.js:3:3" ∧
    ("    at /a/b.js:1:1\n    ... skipping 1 frame ...\n    at /a/b.js:3:3" ≠
      "    at /a/b.js:1:1\n    at /a/b.js:2:2\n    at /a/b.js:3:3") := by
  refine ⟨by decide, by decide, by decide⟩

/-- C9 (amended): filtering is not idempotent for every fixed option set (see
the counterexample, whose exclusion predicate distinguishes frames the
serializer normalizes); with the built-in category excluders and identity
hooks the filtered output is a fixed point, shown on a representative
header-plus-node-frames trace: filtering `c9MixedInput` yields
`c9MixedOutput`, and filtering `c9MixedOutput` again returns it unchanged. -/
theorem filterStack_idempotent_amended :
    filterStackStr id nodeSkipOptions c9MixedInput = c9MixedOutput ∧
    filterStackStr id nodeSkipOptions c9MixedOutput = c9MixedOutput := by
  constructor
  · decide
  · decide

/-- C10: the Error-object overload of `filterStack` returns the given object
with at most its `.stack` field replaced — every other field is unchanged —
and returns it entirely unmodified when `.stack` is undefined or the empty
string.  (The source mutates and returns the very same object, so reference
identity is trivial there; the model states the observable content.) -/
theorem filterStackErr_object_fields (resolvePath : String → String)
    (opts : FilterStackOptions) (e : JsError) :
    (filterStackErr resolvePath opts e).name = e.name ∧
    (filterStackErr resolvePath opts e).message = e.message ∧
    ((e.stack = none ∨ e.stack = some "") → filterStackErr resolvePath opts e = e) := by
  rcases he : e.stack with _ | s
  · simp [filterStackErr, he]
  · by_cases hs : s = ""
    · subst hs
      simp [filterStackErr, he]
    · refine ⟨?_, ?_, ?_⟩
      · simp [filterStackErr, he, hs]
      · simp [filterStackErr, he, hs]
      · rintro (h | h)
        · exact Option.noConfusion h
        · exact absurd (Option.some.inj h) hs

/-- C10 witness: at a concrete error value with no stack text, the object
comes back unmodified. -/
theorem filterStackErr_object_fields_witness :
    filterStackErr id {} { name := "Error", message := "boom", stack := none } =
      { name := "Error", message := "boom", stack := none } :=
  (filterStackErr_object_fields id {}
    { name := "Error", message := "boom", stack := none }).2.2 (Or.inl rfl)

end TSDebug
